import Mathlib

/-!
Verification of `tools/freeze_requirements.py`.

The Python module is embedded shallowly: file contents are byte lists, the
external `pip-compile` subprocess and the filesystem are supplied as explicit
environment functions, and Python exceptions become `Except` errors.  The
function names (`worker`, `check_futures`, `main`, `base_cmd`, ...) follow the
source.
-/

/-- A byte string: Python `bytes` is modelled as a list of byte values. -/
abbrev Bytes := List Nat

/-- The payload of Python's `subprocess.CalledProcessError`: the command
tokens (`e.cmd`), the exit code (`e.returncode`) and the captured output
streams (`e.stdout`, `e.stderr`). -/
structure CPEData where
  cmd : List String
  returncode : Int
  stdout : Bytes
  stderr : Bytes
deriving DecidableEq

/-- Exceptions a `worker` call can raise: `cpe` is the re-raised
`CalledProcessError` from `run(args, check=True)`; `osError p` is the failure
of `open(dest, "rb+")` when the output file at `p` cannot be opened for
read-write; `indexError` is `args[-1]` on an empty tuple. -/
inductive WExc where
  | cpe (e : CPEData)
  | osError (path : String)
  | indexError
deriving DecidableEq

/-- The header `worker` writes: the exact Python bytes literal
`b"# DO NOT MODIFY. ...\n\n"` (the comment line, then a blank line). -/
def HEADER : String :=
  "# DO NOT MODIFY. This file was generated with `make freeze-requirements`.\n\n"

/-- The header as bytes.  `HEADER` is pure ASCII, so code points are bytes. -/
def HEADER_BYTES : Bytes := HEADER.toList.map Char.toNat

/-- `worker(args)` from the source.  `dest = args[-1]` is taken before the
tool runs; `run(args, check=True, capture_output=True)` either succeeds
(`runExc = none`) or raises `CalledProcessError` carrying `args`, the exit
code and both captured streams.  On success the output file is opened
`"rb+"`; `destContent` is the byte content the external tool left there
(`none` when the open fails).  The file is then rewritten from offset 0 with
`HEADER_BYTES ++ content`; since the new content is strictly longer than the
old, this overwrite is the whole resulting file.  The `ok` value is the pair
of `dest` and the final content at `dest`. -/
def worker (args : List String) (runExc : Option (Int × Bytes × Bytes))
    (destContent : Option Bytes) : Except WExc (String × Bytes) :=
  match args.getLast? with
  | none => .error .indexError
  | some dest =>
    match runExc with
    | some (rc, out, err) => .error (.cpe ⟨args, rc, out, err⟩)
    | none =>
      match destContent with
      | none => .error (.osError dest)
      | some content => .ok (dest, HEADER_BYTES ++ content)

/-- The structured failure report `check_futures` prints for one failed job:
the f-string renders `e.cmd`, `e.returncode`, `e.stdout` and `e.stderr`. -/
structure Report where
  cmd : List String
  returncode : Int
  stdout : Bytes
  stderr : Bytes
deriving DecidableEq

/-- True exactly when a resolved future carried no exception. -/
def okB : Except WExc (String × Bytes) → Bool
  | .ok _ => true
  | .error _ => false

/-- True exactly when a resolved future carried an exception that is not a
`CalledProcessError` — the only exception class `check_futures` catches. -/
def hardB : Except WExc (String × Bytes) → Bool
  | .error (.osError _) => true
  | .error .indexError => true
  | _ => false

/-- True exactly when the future failed at the header-stamping step: the tool
ran successfully but `open(dest, "rb+")` raised. -/
def isStampFailure : Except WExc (String × Bytes) → Bool
  | .error (.osError _) => true
  | _ => false

/-- The report printed for one future, when it failed with
`CalledProcessError`. -/
def reportOf : Except WExc (String × Bytes) → Option Report
  | .error (.cpe e) => some ⟨e.cmd, e.returncode, e.stdout, e.stderr⟩
  | _ => none

/-- The loop body of `check_futures`, threading Python's `rc` accumulator.
Each future is awaited in order; a `CalledProcessError` sets `rc = 1` and
prints a report; any other exception propagates out of the loop, so the
remaining futures are never awaited and nothing further is printed. -/
def cfAux (rc : Nat) : List (Except WExc (String × Bytes)) →
    List Report × Except WExc Nat
  | [] => ([], .ok rc)
  | .ok _ :: rest => cfAux rc rest
  | .error (.cpe e) :: rest =>
    ((⟨e.cmd, e.returncode, e.stdout, e.stderr⟩ : Report) :: (cfAux 1 rest).1,
      (cfAux 1 rest).2)
  | .error (.osError p) :: _ => ([], .error (.osError p))
  | .error .indexError :: _ => ([], .error .indexError)

/-- `check_futures(futures)` from the source: returns the printed reports and
either the accumulated `rc` (normal return) or the propagated exception. -/
def check_futures (futures : List (Except WExc (String × Bytes))) :
    List Report × Except WExc Nat :=
  cfAux 0 futures

/-- The run environment: the filesystem `main` starts from (used by the
seeding `copyfile` calls), and, per command token list, the outcome of
`run(args, check=True)` (`none` for exit 0, otherwise the exit code and both
captured streams) and the content readable at the job's output file after the
tool ran (`none` when `open(dest, "rb+")` fails). -/
structure Env where
  fs : String → Option Bytes
  runExc : List String → Option (Int × Bytes × Bytes)
  fileAfter : List String → Option Bytes

/-- The outcome of one submitted job: `worker(args)` run against the
environment. -/
def jobOutcome (env : Env) (args : List String) : Except WExc (String × Bytes) :=
  worker args (env.runExc args) (env.fileAfter args)

/-- The resolved futures of one stage, in submission order. -/
def runStage (env : Env) (jobs : List (List String)) :
    List (Except WExc (String × Bytes)) :=
  jobs.map (jobOutcome env)

/-- The three lockfile names enumerated in `main`'s seeding loop. -/
def lockfiles : List String :=
  ["requirements-frozen.txt", "requirements-dev-frozen.txt",
    "requirements-dev-only-frozen.txt"]

/-- Exceptions `shutil.copyfile` can raise here: `fileNotFound src` when the
source lockfile does not exist; `sameFile p` when source and destination are
the same existing file (`shutil.SameFileError`). -/
inductive SeedErr where
  | fileNotFound (src : String)
  | sameFile (path : String)
deriving DecidableEq

/-- The seeding loop of `main`: for each lockfile name, in order,
`copyfile(f"[base_path]/[lockfile]", f"[outdir]/[lockfile]")`.  `copyfile`
first raises `SameFileError` when the two paths name the same existing file,
raises `FileNotFoundError` when the source is missing, and otherwise copies;
the first exception aborts the loop.  Returns the copies performed (src, dst)
and the exception, if any. -/
def copySeed (fs : String → Option Bytes) (base_path outdir : String) :
    List String → List (String × String) × Option SeedErr
  | [] => ([], none)
  | lockfile :: rest =>
    match fs (base_path ++ "/" ++ lockfile) with
    | none => ([], some (.fileNotFound (base_path ++ "/" ++ lockfile)))
    | some content =>
      if base_path ++ "/" ++ lockfile = outdir ++ "/" ++ lockfile then
        ([], some (.sameFile (base_path ++ "/" ++ lockfile)))
      else
        ((base_path ++ "/" ++ lockfile, outdir ++ "/" ++ lockfile) ::
            (copySeed
              (fun p => if p = outdir ++ "/" ++ lockfile then some content
                else fs p)
              base_path outdir rest).1,
          (copySeed
            (fun p => if p = outdir ++ "/" ++ lockfile then some content
              else fs p)
            base_path outdir rest).2)

/-- The seeding step of `main`: skipped when `outdir is None` (the output
path then defaults to `base_path`); otherwise the three lockfiles are copied
unconditionally — the code tests `outdir is None`, not whether `outdir`
differs from `base_path`. -/
def seedStep (fs : String → Option Bytes) (base_path : String)
    (outdir : Option String) : List (String × String) × Option SeedErr :=
  match outdir with
  | none => ([], none)
  | some od => copySeed fs base_path od lockfiles

/-- `base_cmd` from the source. -/
def base_cmd : List String :=
  ["pip-compile", "--no-header", "--no-annotate", "--allow-unsafe", "-q"]

/-- The stage-1 job token lists, in submission order: the two unconditional
`executor.submit(worker, ...)` calls, plus the dev-only job appended when
`not IS_GETSENTRY`. -/
def stage1Jobs (IS_GETSENTRY : Bool) (base_path outdir : String) :
    List (List String) :=
  [base_cmd ++ [base_path ++ "/requirements-base.txt", "-o",
      outdir ++ "/requirements-frozen.txt"],
    base_cmd ++ [base_path ++ "/requirements-base.txt",
      base_path ++ "/requirements-dev.txt", "-o",
      outdir ++ "/requirements-dev-frozen.txt"]] ++
    (if IS_GETSENTRY then []
      else [base_cmd ++ [base_path ++ "/requirements-dev.txt", "-o",
        outdir ++ "/requirements-dev-only-frozen.txt"]])

/-- The stage-2 job token lists (the `if IS_GETSENTRY:` block): the same two
output paths as stage 1, each with one extra `sentry-requirements-*` input
inserted before `-o`. -/
def stage2Jobs (base_path outdir : String) : List (List String) :=
  [base_cmd ++ [base_path ++ "/requirements-base.txt",
      base_path ++ "/sentry-requirements-frozen.txt", "-o",
      outdir ++ "/requirements-frozen.txt"],
    base_cmd ++ [base_path ++ "/requirements-base.txt",
      base_path ++ "/requirements-dev.txt",
      base_path ++ "/sentry-requirements-dev-frozen.txt", "-o",
      outdir ++ "/requirements-dev-frozen.txt"]]

/-- Exceptions that can propagate out of `main`: a seeding `copyfile` failure
or a non-`CalledProcessError` exception escaping `check_futures`. -/
inductive PyErr where
  | seed (e : SeedErr)
  | worker (e : WExc)
deriving DecidableEq

/-- Lifts a `check_futures` outcome to a `main` outcome: a returned `rc`
becomes `main`'s return value, a propagated exception escapes `main`. -/
def liftW : Except WExc Nat → Except PyErr Nat
  | .ok rc => .ok rc
  | .error e => .error (.worker e)

/-- An observation of one `main` call: the `copyfile` calls performed, the
job token lists submitted to the executor in each stage, the failure reports
printed, and the returned value or propagated exception. -/
structure MainTrace where
  seedCopies : List (String × String)
  stage1Submitted : List (List String)
  stage2Submitted : List (List String)
  reports : List Report
  result : Except PyErr Nat

/-- `main` after a successful seeding step: submit stage 1, aggregate; on
`rc != 0` shut down and return `rc`; otherwise, when `IS_GETSENTRY`, submit
and aggregate stage 2 and return its `rc`; else return 0. -/
def afterSeed (IS_GETSENTRY : Bool) (base_path outdir : String) (env : Env)
    (copies : List (String × String)) : MainTrace :=
  match (check_futures (runStage env (stage1Jobs IS_GETSENTRY base_path outdir))).2 with
  | .error e =>
    ⟨copies, stage1Jobs IS_GETSENTRY base_path outdir, [],
      (check_futures (runStage env (stage1Jobs IS_GETSENTRY base_path outdir))).1,
      .error (.worker e)⟩
  | .ok rc =>
    if rc ≠ 0 then
      ⟨copies, stage1Jobs IS_GETSENTRY base_path outdir, [],
        (check_futures (runStage env (stage1Jobs IS_GETSENTRY base_path outdir))).1,
        .ok rc⟩
    else if IS_GETSENTRY then
      ⟨copies, stage1Jobs IS_GETSENTRY base_path outdir,
        stage2Jobs base_path outdir,
        (check_futures (runStage env (stage1Jobs IS_GETSENTRY base_path outdir))).1 ++
          (check_futures (runStage env (stage2Jobs base_path outdir))).1,
        liftW (check_futures (runStage env (stage2Jobs base_path outdir))).2⟩
    else
      ⟨copies, stage1Jobs IS_GETSENTRY base_path outdir, [],
        (check_futures (runStage env (stage1Jobs IS_GETSENTRY base_path outdir))).1,
        .ok rc⟩

namespace freeze_requirements

/-- `main(repo, outdir)` from the source.  `IS_GETSENTRY = repo == "getsentry"`;
`base_path` abstracts `abspath(gitroot())`; the seeding step runs first and a
seeding exception propagates before any job is submitted; otherwise the run
continues with `outdir` defaulted to `base_path`. -/
def main (repo : String) (outdir : Option String) (base_path : String)
    (env : Env) : MainTrace :=
  match (seedStep env.fs base_path outdir).2 with
  | some e =>
    ⟨(seedStep env.fs base_path outdir).1, [], [], [], .error (.seed e)⟩
  | none =>
    afterSeed (decide (repo = "getsentry")) base_path (outdir.getD base_path)
      env (seedStep env.fs base_path outdir).1

end freeze_requirements

/-- The process exit status a `main` outcome produces: `raise SystemExit(rc)`
exits with `rc`, while an uncaught Python exception makes the interpreter
exit with status 1. -/
def processStatus (t : MainTrace) : Nat :=
  match t.result with
  | .ok rc => rc
  | .error _ => 1

/-- When every future of a stage resolved without exception, the loop prints
nothing and returns the accumulator unchanged. -/
lemma cf_all_ok (l : List (Except WExc (String × Bytes))) (rc : Nat)
    (h : ∀ o ∈ l, okB o = true) : cfAux rc l = ([], .ok rc) := by
  induction l generalizing rc with
  | nil => rfl
  | cons o rest ih =>
    match o with
    | .ok v =>
      simpa [cfAux] using ih rc (fun o ho => h o (List.mem_cons_of_mem _ ho))
    | .error e => simpa [okB] using h (.error e) (List.mem_cons_self _ _)

/-- When the loop returns normally with value `m`, either no future failed
and `m` is the initial accumulator, or some future failed with
`CalledProcessError` and `m = 1`. -/
lemma cf_ok_cases (l : List (Except WExc (String × Bytes))) (rc m : Nat)
    (reps : List Report) (h : cfAux rc l = (reps, .ok m)) :
    (m = rc ∧ ∀ o ∈ l, okB o = true) ∨ (m = 1 ∧ ∃ o ∈ l, okB o = false) := by
  induction l generalizing rc reps with
  | nil =>
    left
    simp only [cfAux, Prod.mk.injEq, Except.ok.injEq] at h
    exact ⟨h.2.symm, by simp⟩
  | cons o rest ih =>
    match o with
    | .ok v =>
      rcases ih rc reps (by simpa [cfAux] using h) with ⟨hm, hall⟩ | ⟨hm, hex⟩
      · exact .inl ⟨hm, by simpa [okB] using hall⟩
      · exact .inr ⟨hm, by
          rcases hex with ⟨o', ho', hfail⟩
          exact ⟨o', List.mem_cons_of_mem _ ho', hfail⟩⟩
    | .error (.cpe e) =>
      simp only [cfAux, Prod.mk.injEq] at h
      rcases ih 1 (cfAux 1 rest).1 (by rw [← h.2]) with ⟨hm, _⟩ | ⟨hm, _⟩ <;>
        exact .inr ⟨hm, .error (.cpe e), List.mem_cons_self _ _, rfl⟩
    | .error (.osError p) => simp [cfAux] at h
    | .error .indexError => simp [cfAux] at h

/-- A future that failed with anything other than `CalledProcessError` makes
the loop propagate an exception: `check_futures` does not return. -/
lemma cf_hard_err (l : List (Except WExc (String × Bytes))) (rc : Nat)
    (h : ∃ o ∈ l, hardB o = true) : ∃ e, (cfAux rc l).2 = .error e := by
  induction l generalizing rc with
  | nil => simp at h
  | cons o rest ih =>
    rcases h with ⟨o', ho', hhard⟩
    rcases List.mem_cons.1 ho' with rfl | hmem
    · match o', hhard with
      | .error (.osError p), _ => exact ⟨.osError p, rfl⟩
      | .error .indexError, _ => exact ⟨.indexError, rfl⟩
    · match o with
      | .ok v => exact ih rc ⟨o', hmem, hhard⟩
      | .error (.cpe e) => simpa [cfAux] using ih 1 ⟨o', hmem, hhard⟩
      | .error (.osError p) => exact ⟨.osError p, rfl⟩
      | .error .indexError => exact ⟨.indexError, rfl⟩

/-- Every future of a stage is ok exactly when every submitted job's outcome
is ok. -/
lemma runStage_all_ok (env : Env) (jobs : List (List String)) :
    (∀ o ∈ runStage env jobs, okB o = true) ↔
      ∀ args ∈ jobs, okB (jobOutcome env args) = true := by
  simp [runStage]

/-- Some future of a stage failed exactly when some submitted job's outcome
failed. -/
lemma runStage_ex_fail (env : Env) (jobs : List (List String)) :
    (∃ o ∈ runStage env jobs, okB o = false) ↔
      ∃ args ∈ jobs, okB (jobOutcome env args) = false := by
  simp [runStage]

/-- When every future resolved without exception, `check_futures` returns 0. -/
lemma check_snd_all_ok (l : List (Except WExc (String × Bytes)))
    (h : ∀ o ∈ l, okB o = true) : (check_futures l).2 = .ok 0 := by
  rw [check_futures, cf_all_ok l 0 h]

/-- When `check_futures` returns normally, the value is 0 with every future
ok, or 1 with some future failed. -/
lemma check_snd_ok_cases (l : List (Except WExc (String × Bytes))) (m : Nat)
    (h : (check_futures l).2 = .ok m) :
    (m = 0 ∧ ∀ o ∈ l, okB o = true) ∨ (m = 1 ∧ ∃ o ∈ l, okB o = false) :=
  cf_ok_cases l 0 m (check_futures l).1 (by rw [← h]; rfl)

/-- A non-`CalledProcessError` failure among the futures makes
`check_futures` propagate an exception. -/
lemma check_snd_hard (l : List (Except WExc (String × Bytes)))
    (h : ∃ o ∈ l, hardB o = true) : ∃ e, (check_futures l).2 = .error e :=
  cf_hard_err l 0 h

/-- Unfolding `afterSeed` when stage-1 aggregation propagates an exception. -/
lemma afterSeed_err (b : Bool) (bp od : String) (env : Env)
    (copies : List (String × String)) (e : WExc)
    (h1 : (check_futures (runStage env (stage1Jobs b bp od))).2 = .error e) :
    afterSeed b bp od env copies =
      ⟨copies, stage1Jobs b bp od, [],
        (check_futures (runStage env (stage1Jobs b bp od))).1,
        .error (.worker e)⟩ := by
  unfold afterSeed
  rw [h1]

/-- Unfolding `afterSeed` when stage-1 aggregation returns a nonzero `rc`:
the pool is shut down and `rc` returned, stage 2 never submitted. -/
lemma afterSeed_fail (b : Bool) (bp od : String) (env : Env)
    (copies : List (String × String)) (rc : Nat)
    (h1 : (check_futures (runStage env (stage1Jobs b bp od))).2 = .ok rc)
    (hrc : rc ≠ 0) :
    afterSeed b bp od env copies =
      ⟨copies, stage1Jobs b bp od, [],
        (check_futures (runStage env (stage1Jobs b bp od))).1, .ok rc⟩ := by
  unfold afterSeed
  rw [h1]
  simp [hrc]

/-- Unfolding `afterSeed` in the getsentry mode when stage 1 aggregates to 0:
stage 2 is submitted and its aggregation decides the result. -/
lemma afterSeed_ok_gs (bp od : String) (env : Env)
    (copies : List (String × String))
    (h1 : (check_futures (runStage env (stage1Jobs true bp od))).2 = .ok 0) :
    afterSeed true bp od env copies =
      ⟨copies, stage1Jobs true bp od, stage2Jobs bp od,
        (check_futures (runStage env (stage1Jobs true bp od))).1 ++
          (check_futures (runStage env (stage2Jobs bp od))).1,
        liftW (check_futures (runStage env (stage2Jobs bp od))).2⟩ := by
  unfold afterSeed
  rw [h1]
  simp

/-- Unfolding `afterSeed` in the non-getsentry mode when stage 1 aggregates
to 0: the run returns 0 with no stage 2. -/
lemma afterSeed_ok_plain (bp od : String) (env : Env)
    (copies : List (String × String))
    (h1 : (check_futures (runStage env (stage1Jobs false bp od))).2 = .ok 0) :
    afterSeed false bp od env copies =
      ⟨copies, stage1Jobs false bp od, [],
        (check_futures (runStage env (stage1Jobs false bp od))).1, .ok 0⟩ := by
  unfold afterSeed
  rw [h1]
  simp

/-- Unfolding `main` when the seeding step raises: the exception propagates
with no job submitted. -/
lemma main_seed_err (repo : String) (od : Option String) (bp : String)
    (env : Env) (e : SeedErr) (hseed : (seedStep env.fs bp od).2 = some e) :
    freeze_requirements.main repo od bp env =
      ⟨(seedStep env.fs bp od).1, [], [], [], .error (.seed e)⟩ := by
  unfold freeze_requirements.main
  rw [hseed]

/-- Unfolding `main` when the seeding step succeeds. -/
lemma main_seed_ok (repo : String) (od : Option String) (bp : String)
    (env : Env) (hseed : (seedStep env.fs bp od).2 = none) :
    freeze_requirements.main repo od bp env =
      afterSeed (decide (repo = "getsentry")) bp (od.getD bp) env
        (seedStep env.fs bp od).1 := by
  unfold freeze_requirements.main
  rw [hseed]

/-- C1: for every job whose external-tool invocation succeeds and every byte
string `c` the tool left as the output file's content, after `worker`
completes the output file's content is exactly the fixed header block
followed by `c`, byte-for-byte. -/
theorem worker_stamps_header (args : List String) (dest : String) (c : Bytes)
    (hd : args.getLast? = some dest) :
    worker args none (some c) = .ok (dest, HEADER_BYTES ++ c) := by
  simp [worker, hd]

/-- Witness for C1: a concrete job with binary (non-ASCII) tool output. -/
theorem worker_stamps_header_witness :
    (["pip-compile", "-o", "/repo/requirements-frozen.txt"].getLast? =
        some "/repo/requirements-frozen.txt") ∧
      worker ["pip-compile", "-o", "/repo/requirements-frozen.txt"] none
          (some [0, 255, 10]) =
        .ok ("/repo/requirements-frozen.txt", HEADER_BYTES ++ [0, 255, 10]) :=
  ⟨rfl, worker_stamps_header _ _ _ rfl⟩

/-- C3: whenever `main` returns a value `r`, `r = 0` exactly when every job
submitted in any stage of the run succeeded, and a returned `r` is always 0
or exactly 1, regardless of how many jobs failed or with what exit codes. -/
theorem main_status_iff_all_ok (repo : String) (od : Option String)
    (bp : String) (env : Env) (r : Nat)
    (hr : (freeze_requirements.main repo od bp env).result = .ok r) :
    (r = 0 ↔
      ∀ args ∈ (freeze_requirements.main repo od bp env).stage1Submitted ++
          (freeze_requirements.main repo od bp env).stage2Submitted,
        okB (jobOutcome env args) = true) ∧ (r = 0 ∨ r = 1) := by
  cases hs : (seedStep env.fs bp od).2 with
  | some e =>
    rw [main_seed_err repo od bp env e hs] at hr
    simp at hr
  | none =>
    rw [main_seed_ok repo od bp env hs] at hr ⊢
    rcases Bool.eq_false_or_eq_true (decide (repo = "getsentry")) with hgs | hgs <;>
      rw [hgs] at hr ⊢
    · cases h1 :
        (check_futures (runStage env (stage1Jobs true bp (od.getD bp)))).2 with
      | error e =>
        rw [afterSeed_err true bp (od.getD bp) env _ e h1] at hr
        simp at hr
      | ok rc =>
        by_cases hrc : rc = 0
        · subst hrc
          rw [afterSeed_ok_gs bp (od.getD bp) env _ h1] at hr ⊢
          rcases check_snd_ok_cases _ _ h1 with ⟨_, hall1⟩ | ⟨hm, _⟩
          · cases h2 :
              (check_futures (runStage env (stage2Jobs bp (od.getD bp)))).2 with
            | error e =>
              rw [h2] at hr
              simp [liftW] at hr
            | ok m =>
              rw [h2] at hr
              simp only [liftW, Except.ok.injEq] at hr
              subst hr
              rcases check_snd_ok_cases _ _ h2 with ⟨hm2, hall2⟩ | ⟨hm2, hex2⟩
              · subst hm2
                refine ⟨⟨fun _ => ?_, fun _ => rfl⟩, .inl rfl⟩
                intro args hargs
                simp only [List.mem_append] at hargs
                rcases hargs with h | h
                · exact (runStage_all_ok env _).1 hall1 args h
                · exact (runStage_all_ok env _).1 hall2 args h
              · subst hm2
                refine ⟨⟨fun h => absurd h (by simp), fun hall => ?_⟩, .inr rfl⟩
                rcases (runStage_ex_fail env _).1 hex2 with ⟨args, hargs, hfail⟩
                have := hall args (by simp [hargs])
                rw [this] at hfail
                exact absurd hfail (by simp)
          · exact absurd hm (by simp)
        · rw [afterSeed_fail true bp (od.getD bp) env _ rc h1 hrc] at hr ⊢
          simp only [Except.ok.injEq] at hr
          subst hr
          rcases check_snd_ok_cases _ _ h1 with ⟨hm, _⟩ | ⟨hm, hex⟩
          · exact absurd hm hrc
          · subst hm
            refine ⟨⟨fun h => absurd h (by simp), fun hall => ?_⟩, .inr rfl⟩
            rcases (runStage_ex_fail env _).1 hex with ⟨args, hargs, hfail⟩
            have := hall args (by simpa using hargs)
            rw [this] at hfail
            exact absurd hfail (by simp)
    · cases h1 :
        (check_futures (runStage env (stage1Jobs false bp (od.getD bp)))).2 with
      | error e =>
        rw [afterSeed_err false bp (od.getD bp) env _ e h1] at hr
        simp at hr
      | ok rc =>
        by_cases hrc : rc = 0
        · subst hrc
          rw [afterSeed_ok_plain bp (od.getD bp) env _ h1] at hr ⊢
          simp only [Except.ok.injEq] at hr
          subst hr
          rcases check_snd_ok_cases _ _ h1 with ⟨_, hall⟩ | ⟨hm, _⟩
          · refine ⟨⟨fun _ => ?_, fun _ => rfl⟩, .inl rfl⟩
            simpa using (runStage_all_ok env _).1 hall
          · exact absurd hm (by simp)
        · rw [afterSeed_fail false bp (od.getD bp) env _ rc h1 hrc] at hr ⊢
          simp only [Except.ok.injEq] at hr
          subst hr
          rcases check_snd_ok_cases _ _ h1 with ⟨hm, _⟩ | ⟨hm, hex⟩
          · exact absurd hm hrc
          · subst hm
            refine ⟨⟨fun h => absurd h (by simp), fun hall => ?_⟩, .inr rfl⟩
            rcases (runStage_ex_fail env _).1 hex with ⟨args, hargs, hfail⟩
            have := hall args (by simpa using hargs)
            rw [this] at hfail
            exact absurd hfail (by simp)

/-- A run environment in which every tool invocation exits 0 and every
output file is readable (as the single byte 97). -/
def env_all_ok : Env :=
  ⟨fun _ => some [], fun _ => none, fun _ => some [97]⟩

/-- A run environment in which every tool invocation exits 2 with some
captured stderr. -/
def env_all_fail : Env :=
  ⟨fun _ => some [], fun _ => some (2, [], [104, 105]), fun _ => some []⟩

/-- A run environment in which every tool invocation succeeds but no output
file can be opened afterwards. -/
def env_stamp_fail : Env :=
  ⟨fun _ => some [], fun _ => none, fun _ => none⟩

/-- A stamp failure is one of the exceptions `check_futures` does not
catch. -/
lemma stamp_imp_hard (o : Except WExc (String × Bytes))
    (h : isStampFailure o = true) : hardB o = true := by
  cases o with
  | ok v => simp [isStampFailure] at h
  | error e => cases e <;> simp_all [isStampFailure, hardB]

/-- The outcome of a submitted job is among the stage's futures. -/
lemma runStage_mem (env : Env) (jobs : List (List String))
    (args : List String) (h : args ∈ jobs) :
    jobOutcome env args ∈ runStage env jobs :=
  List.mem_map_of_mem _ h

/-- C2: in the merge mode (`repo == "getsentry"`), whenever any stage-1
job's result is a failure, no stage-2 job is ever submitted, and the run's
outcome is exactly what stage-1 aggregation produced. -/
theorem no_stage2_on_stage1_failure (od : Option String) (bp : String)
    (env : Env) (hseed : (seedStep env.fs bp od).2 = none)
    (hfail : ∃ o ∈ runStage env (stage1Jobs true bp (od.getD bp)),
      okB o = false) :
    (freeze_requirements.main "getsentry" od bp env).stage2Submitted = [] ∧
      (freeze_requirements.main "getsentry" od bp env).result =
        liftW
          (check_futures (runStage env (stage1Jobs true bp (od.getD bp)))).2 := by
  rw [main_seed_ok "getsentry" od bp env hseed]
  rw [show (decide (("getsentry" : String) = "getsentry")) = true from by decide]
  cases h1 : (check_futures (runStage env (stage1Jobs true bp (od.getD bp)))).2 with
  | error e =>
    rw [afterSeed_err true bp (od.getD bp) env _ e h1]
    exact ⟨rfl, rfl⟩
  | ok rc =>
    rcases check_snd_ok_cases _ _ h1 with ⟨_, hall⟩ | ⟨hm, _⟩
    · rcases hfail with ⟨o, ho, hko⟩
      rw [hall o ho] at hko
      exact absurd hko (by simp)
    · subst hm
      rw [afterSeed_fail true bp (od.getD bp) env _ 1 h1 (by simp)]
      exact ⟨rfl, rfl⟩

/-- Witness for C2: a getsentry run in which both stage-1 tool invocations
exit 2; no stage-2 job is submitted and the run returns 1. -/
theorem no_stage2_on_stage1_failure_witness :
    ((seedStep env_all_fail.fs "/repo" none).2 = none) ∧
      (∃ o ∈ runStage env_all_fail (stage1Jobs true "/repo" "/repo"),
        okB o = false) ∧
      (freeze_requirements.main "getsentry" none "/repo"
          env_all_fail).stage2Submitted = [] ∧
      (freeze_requirements.main "getsentry" none "/repo" env_all_fail).result =
        liftW
          (check_futures
            (runStage env_all_fail (stage1Jobs true "/repo" "/repo"))).2 :=
  ⟨rfl, by decide,
    no_stage2_on_stage1_failure none "/repo" env_all_fail rfl (by decide)⟩

/-- C4: whenever some submitted job's tool invocation succeeded but its
output file could not then be opened for the header rewrite, the run
propagates an exception (the failure is not silently swallowed) and the
process exit status is 1 — the same status a tool-invocation failure
produces. -/
theorem stamp_failure_propagates (repo : String) (od : Option String)
    (bp : String) (env : Env)
    (h : ∃ args ∈ (freeze_requirements.main repo od bp env).stage1Submitted ++
        (freeze_requirements.main repo od bp env).stage2Submitted,
      isStampFailure (jobOutcome env args) = true) :
    (∃ e, (freeze_requirements.main repo od bp env).result = .error e) ∧
      processStatus (freeze_requirements.main repo od bp env) = 1 := by
  cases hs : (seedStep env.fs bp od).2 with
  | some e =>
    rw [main_seed_err repo od bp env e hs] at h ⊢
    simp at h
  | none =>
    rw [main_seed_ok repo od bp env hs] at h ⊢
    rcases Bool.eq_false_or_eq_true (decide (repo = "getsentry")) with hgs | hgs <;>
      rw [hgs] at h ⊢
    · cases h1 :
        (check_futures (runStage env (stage1Jobs true bp (od.getD bp)))).2 with
      | error e =>
        rw [afterSeed_err true bp (od.getD bp) env _ e h1]
        exact ⟨⟨.worker e, rfl⟩, rfl⟩
      | ok rc =>
        have hnos1 : ∀ args ∈ stage1Jobs true bp (od.getD bp),
            isStampFailure (jobOutcome env args) = false := by
          intro args hm
          by_contra hne
          have hsf : isStampFailure (jobOutcome env args) = true := by
            revert hne
            cases isStampFailure (jobOutcome env args) <;> simp
          rcases check_snd_hard _
              ⟨jobOutcome env args, runStage_mem env _ args hm,
                stamp_imp_hard _ hsf⟩ with ⟨e, he⟩
          rw [h1] at he
          exact absurd he (by simp)
        by_cases hrc : rc = 0
        · subst hrc
          rw [afterSeed_ok_gs bp (od.getD bp) env _ h1] at h ⊢
          rcases h with ⟨args, hargs, hsf⟩
          simp only [List.mem_append] at hargs
          rcases hargs with hm | hm
          · rw [hnos1 args hm] at hsf
            exact absurd hsf (by simp)
          · rcases check_snd_hard _
                ⟨jobOutcome env args, runStage_mem env _ args hm,
                  stamp_imp_hard _ hsf⟩ with ⟨e, he⟩
            refine ⟨⟨.worker e, ?_⟩, ?_⟩
            · show liftW (check_futures
                (runStage env (stage2Jobs bp (od.getD bp)))).2 = _
              rw [he]
              rfl
            · show processStatus _ = 1
              simp [processStatus, he, liftW]
        · rw [afterSeed_fail true bp (od.getD bp) env _ rc h1 hrc] at h ⊢
          rcases h with ⟨args, hargs, hsf⟩
          simp only [List.append_nil] at hargs
          rw [hnos1 args hargs] at hsf
          exact absurd hsf (by simp)
    · cases h1 :
        (check_futures (runStage env (stage1Jobs false bp (od.getD bp)))).2 with
      | error e =>
        rw [afterSeed_err false bp (od.getD bp) env _ e h1]
        exact ⟨⟨.worker e, rfl⟩, rfl⟩
      | ok rc =>
        have hnos1 : ∀ args ∈ stage1Jobs false bp (od.getD bp),
            isStampFailure (jobOutcome env args) = false := by
          intro args hm
          by_contra hne
          have hsf : isStampFailure (jobOutcome env args) = true := by
            revert hne
            cases isStampFailure (jobOutcome env args) <;> simp
          rcases check_snd_hard _
              ⟨jobOutcome env args, runStage_mem env _ args hm,
                stamp_imp_hard _ hsf⟩ with ⟨e, he⟩
          rw [h1] at he
          exact absurd he (by simp)
        by_cases hrc : rc = 0
        · subst hrc
          rw [afterSeed_ok_plain bp (od.getD bp) env _ h1] at h ⊢
          rcases h with ⟨args, hargs, hsf⟩
          simp only [List.append_nil] at hargs
          rw [hnos1 args hargs] at hsf
          exact absurd hsf (by simp)
        · rw [afterSeed_fail false bp (od.getD bp) env _ rc h1 hrc] at h ⊢
          rcases h with ⟨args, hargs, hsf⟩
          simp only [List.append_nil] at hargs
          rw [hnos1 args hargs] at hsf
          exact absurd hsf (by simp)

/-- In the non-getsentry mode, whatever the stage-1 outcomes, the submitted
stage-1 jobs are the three-job list and stage 2 is never submitted. -/
lemma afterSeed_false_fields (bp od : String) (env : Env)
    (copies : List (String × String)) :
    (afterSeed false bp od env copies).stage1Submitted =
        stage1Jobs false bp od ∧
      (afterSeed false bp od env copies).stage2Submitted = [] := by
  cases h1 : (check_futures (runStage env (stage1Jobs false bp od))).2 with
  | error e =>
    rw [afterSeed_err false bp od env copies e h1]
    exact ⟨rfl, rfl⟩
  | ok rc =>
    by_cases hrc : rc = 0
    · subst hrc
      rw [afterSeed_ok_plain bp od env copies h1]
      exact ⟨rfl, rfl⟩
    · rw [afterSeed_fail false bp od env copies rc h1 hrc]
      exact ⟨rfl, rfl⟩

/-- C8: in the non-merge mode, exactly 3 jobs are submitted, all in a single
stage with no stage 2, and every job's token list is the fixed base flags,
then its input files, then `-o` and the output path as the final tokens. -/
theorem plain_mode_jobs (repo : String) (od : Option String) (bp : String)
    (env : Env) (hrepo : repo ≠ "getsentry")
    (hseed : (seedStep env.fs bp od).2 = none) :
    (freeze_requirements.main repo od bp env).stage1Submitted =
        stage1Jobs false bp (od.getD bp) ∧
      (freeze_requirements.main repo od bp env).stage1Submitted.length = 3 ∧
      (freeze_requirements.main repo od bp env).stage2Submitted = [] ∧
      ∀ args ∈ (freeze_requirements.main repo od bp env).stage1Submitted,
        ∃ inputs dest, args = base_cmd ++ inputs ++ ["-o", dest] := by
  rw [main_seed_ok repo od bp env hseed, decide_eq_false hrepo]
  refine ⟨(afterSeed_false_fields bp (od.getD bp) env _).1, ?_,
    (afterSeed_false_fields bp (od.getD bp) env _).2, ?_⟩
  · rw [(afterSeed_false_fields bp (od.getD bp) env _).1]
    rfl
  · intro args hargs
    rw [(afterSeed_false_fields bp (od.getD bp) env _).1] at hargs
    simp only [stage1Jobs, Bool.false_eq_true, if_false, List.mem_append,
      List.mem_cons, List.mem_singleton, List.not_mem_nil, or_false] at hargs
    rcases hargs with (rfl | rfl) | rfl
    · exact ⟨[bp ++ "/requirements-base.txt"],
        (od.getD bp) ++ "/requirements-frozen.txt", rfl⟩
    · exact ⟨[bp ++ "/requirements-base.txt", bp ++ "/requirements-dev.txt"],
        (od.getD bp) ++ "/requirements-dev-frozen.txt", rfl⟩
    · exact ⟨[bp ++ "/requirements-dev.txt"],
        (od.getD bp) ++ "/requirements-dev-only-frozen.txt", rfl⟩

/-- Witness for C8: a non-getsentry run submits exactly the three jobs. -/
theorem plain_mode_jobs_witness :
    ("sentry" ≠ "getsentry") ∧
      ((seedStep env_all_ok.fs "/repo" none).2 = none) ∧
      ((freeze_requirements.main "sentry" none "/repo"
            env_all_ok).stage1Submitted =
          stage1Jobs false "/repo" "/repo" ∧
        (freeze_requirements.main "sentry" none "/repo"
            env_all_ok).stage1Submitted.length = 3 ∧
        (freeze_requirements.main "sentry" none "/repo"
            env_all_ok).stage2Submitted = [] ∧
        ∀ args ∈ (freeze_requirements.main "sentry" none "/repo"
            env_all_ok).stage1Submitted,
          ∃ inputs dest, args = base_cmd ++ inputs ++ ["-o", dest]) :=
  ⟨by decide, rfl,
    plain_mode_jobs "sentry" none "/repo" env_all_ok (by decide) rfl⟩

/-- C9: in the merge mode, when stage 1 fully succeeds, exactly the 2
stage-2 jobs are submitted; each corresponds to a stage-1 job with the same
tokens and the same output path but one extra override input inserted
immediately before `-o`; and the stage-2 aggregation outcome is the run's
final outcome. -/
theorem merge_mode_stage2_jobs (od : Option String) (bp : String) (env : Env)
    (hseed : (seedStep env.fs bp od).2 = none)
    (hok : (check_futures (runStage env (stage1Jobs true bp (od.getD bp)))).2 =
      .ok 0) :
    (freeze_requirements.main "getsentry" od bp env).stage2Submitted =
        stage2Jobs bp (od.getD bp) ∧
      (freeze_requirements.main "getsentry" od bp
          env).stage2Submitted.length = 2 ∧
      List.Forall₂
        (fun j1 j2 => ∃ pre extra dest,
          j1 = pre ++ ["-o", dest] ∧ j2 = pre ++ [extra, "-o", dest])
        (stage1Jobs true bp (od.getD bp)) (stage2Jobs bp (od.getD bp)) ∧
      (freeze_requirements.main "getsentry" od bp env).result =
        liftW
          (check_futures (runStage env (stage2Jobs bp (od.getD bp)))).2 := by
  rw [main_seed_ok "getsentry" od bp env hseed,
    show (decide (("getsentry" : String) = "getsentry")) = true from by decide,
    afterSeed_ok_gs bp (od.getD bp) env _ hok]
  refine ⟨rfl, rfl, ?_, rfl⟩
  refine List.Forall₂.cons
    ⟨base_cmd ++ [bp ++ "/requirements-base.txt"],
      bp ++ "/sentry-requirements-frozen.txt",
      (od.getD bp) ++ "/requirements-frozen.txt", rfl, rfl⟩ ?_
  exact List.Forall₂.cons
    ⟨base_cmd ++ [bp ++ "/requirements-base.txt",
        bp ++ "/requirements-dev.txt"],
      bp ++ "/sentry-requirements-dev-frozen.txt",
      (od.getD bp) ++ "/requirements-dev-frozen.txt", rfl, rfl⟩
    List.Forall₂.nil

/-- Witness for C9: a fully successful getsentry run submits the two
stage-2 jobs and returns stage 2's aggregate. -/
theorem merge_mode_stage2_jobs_witness :
    ((seedStep env_all_ok.fs "/repo" none).2 = none) ∧
      ((check_futures
          (runStage env_all_ok (stage1Jobs true "/repo" "/repo"))).2 =
        .ok 0) ∧
      ((freeze_requirements.main "getsentry" none "/repo"
            env_all_ok).stage2Submitted = stage2Jobs "/repo" "/repo" ∧
        (freeze_requirements.main "getsentry" none "/repo"
            env_all_ok).stage2Submitted.length = 2 ∧
        List.Forall₂
          (fun j1 j2 => ∃ pre extra dest,
            j1 = pre ++ ["-o", dest] ∧ j2 = pre ++ [extra, "-o", dest])
          (stage1Jobs true "/repo" "/repo") (stage2Jobs "/repo" "/repo") ∧
        (freeze_requirements.main "getsentry" none "/repo" env_all_ok).result =
          liftW
            (check_futures
              (runStage env_all_ok (stage2Jobs "/repo" "/repo"))).2) :=
  ⟨rfl, rfl, merge_mode_stage2_jobs none "/repo" env_all_ok rfl rfl⟩

/-- When no future failed with a non-`CalledProcessError` exception, the
loop drains the whole list: it prints one report per `CalledProcessError`
in submission order and returns normally. -/
lemma cfAux_soft (l : List (Except WExc (String × Bytes)))
    (h : ∀ o ∈ l, hardB o = false) (rc : Nat) :
    (cfAux rc l).1 = l.filterMap reportOf ∧ ∃ m, (cfAux rc l).2 = .ok m := by
  induction l generalizing rc with
  | nil => exact ⟨rfl, rc, rfl⟩
  | cons o rest ih =>
    have hrest : ∀ o ∈ rest, hardB o = false :=
      fun o ho => h o (List.mem_cons_of_mem _ ho)
    match o with
    | .ok v =>
      refine ⟨?_, (ih hrest rc).2⟩
      simpa [List.filterMap_cons, reportOf] using (ih hrest rc).1
    | .error (.cpe e) =>
      refine ⟨?_, (ih hrest 1).2⟩
      simpa [cfAux, List.filterMap_cons, reportOf] using (ih hrest 1).1
    | .error (.osError p) =>
      simpa [hardB] using h (.error (.osError p)) (List.mem_cons_self _ _)
    | .error .indexError =>
      simpa [hardB] using h (.error .indexError) (List.mem_cons_self _ _)

/-- C5 (amended): for a stage whose failures are all tool-invocation
failures (`CalledProcessError`), `check_futures` resolves every future in
submission order, prints one structured report — command tokens, exit code,
captured stdout and stderr — per failed job, and returns normally, with 0
exactly when no job failed.  (A stamp-write failure instead aborts the
drain: see the counterexample.) -/
theorem check_futures_drains_cpe (l : List (Except WExc (String × Bytes)))
    (h : ∀ o ∈ l, hardB o = false) :
    (check_futures l).1 = l.filterMap reportOf ∧
      (∃ m, (check_futures l).2 = .ok m) ∧
      ((check_futures l).2 = .ok 0 ↔ ∀ o ∈ l, okB o = true) := by
  refine ⟨(cfAux_soft l h 0).1, (cfAux_soft l h 0).2, ?_, check_snd_all_ok l⟩
  intro h0
  rcases check_snd_ok_cases l 0 h0 with ⟨_, hall⟩ | ⟨hm, _⟩
  · exact hall
  · exact absurd hm (by simp)

/-- A run environment in which the first stage-1 job's output file cannot be
reopened (stamp failure), the second job's tool exits 1, and the third
succeeds. -/
def env_mix : Env :=
  ⟨fun _ => some [],
    fun args =>
      if args.getLast? = some "/repo/requirements-dev-frozen.txt" then
        some (1, [], [115])
      else none,
    fun args =>
      if args.getLast? = some "/repo/requirements-frozen.txt" then none
      else some []⟩

/-- Counterexample to C5 as stated: in a reachable stage with a stamp-write
failure followed by a tool-invocation failure, `check_futures` stops at the
first future, prints no report at all (although two jobs failed), and
propagates the exception instead of returning. -/
theorem check_futures_counterexample :
    (check_futures (runStage env_mix (stage1Jobs false "/repo" "/repo"))).1 =
        [] ∧
      (check_futures (runStage env_mix (stage1Jobs false "/repo" "/repo"))).2 =
        .error (.osError "/repo/requirements-frozen.txt") ∧
      ((runStage env_mix (stage1Jobs false "/repo" "/repo")).filter
          (fun o => !okB o)).length = 2 ∧
      ¬((check_futures
            (runStage env_mix (stage1Jobs false "/repo" "/repo"))).1.length =
          ((runStage env_mix (stage1Jobs false "/repo" "/repo")).filter
              (fun o => !okB o)).length) := by
  refine ⟨rfl, rfl, rfl, ?_⟩
  decide

/-- Witness for C5 (amended): a stage where both tool invocations exit 2;
both reports are printed and the aggregation returns nonzero. -/
theorem check_futures_drains_cpe_witness :
    (∀ o ∈ runStage env_all_fail (stage1Jobs true "/repo" "/repo"),
        hardB o = false) ∧
      ((check_futures
            (runStage env_all_fail (stage1Jobs true "/repo" "/repo"))).1 =
          (runStage env_all_fail
              (stage1Jobs true "/repo" "/repo")).filterMap reportOf ∧
        (∃ m,
          (check_futures
              (runStage env_all_fail (stage1Jobs true "/repo" "/repo"))).2 =
            .ok m) ∧
        ((check_futures
              (runStage env_all_fail (stage1Jobs true "/repo" "/repo"))).2 =
            .ok 0 ↔
          ∀ o ∈ runStage env_all_fail (stage1Jobs true "/repo" "/repo"),
            okB o = true)) :=
  ⟨by decide,
    check_futures_drains_cpe
      (runStage env_all_fail (stage1Jobs true "/repo" "/repo")) (by decide)⟩

/-- In every branch after seeding, the trace records exactly the copies the
seeding step performed. -/
lemma afterSeed_seedCopies (b : Bool) (bp od : String) (env : Env)
    (copies : List (String × String)) :
    (afterSeed b bp od env copies).seedCopies = copies := by
  cases h1 : (check_futures (runStage env (stage1Jobs b bp od))).2 with
  | error e => rw [afterSeed_err b bp od env copies e h1]
  | ok rc =>
    by_cases hrc : rc = 0
    · subst hrc
      cases b with
      | false => rw [afterSeed_ok_plain bp od env copies h1]
      | true => rw [afterSeed_ok_gs bp od env copies h1]
    · rw [afterSeed_fail b bp od env copies rc h1 hrc]

/-- Every copy the seeding loop performs pairs a base-path lockfile with the
same lockfile name under the output directory. -/
lemma copySeed_shape (fs : String → Option Bytes) (bp od : String)
    (lfs : List String) :
    ∀ p ∈ (copySeed fs bp od lfs).1,
      ∃ lf ∈ lfs, p = (bp ++ "/" ++ lf, od ++ "/" ++ lf) := by
  induction lfs generalizing fs with
  | nil => simp [copySeed]
  | cons lf rest ih =>
    intro p hp
    unfold copySeed at hp
    split at hp
    · simp at hp
    · split at hp
      · simp at hp
      · rcases List.mem_cons.1 hp with rfl | hmem
        · exact ⟨lf, List.mem_cons_self _ _, rfl⟩
        · rcases ih _ p hmem with ⟨lf', hlf', hpe⟩
          exact ⟨lf', List.mem_cons_of_mem _ hlf', hpe⟩

/-- C6 (amended): the seeder runs exactly when the `outdir` argument is
provided (is not `None`), regardless of whether it equals the base path: it
then performs the copies of `copySeed` over the three enumerated lockfile
names before any job is submitted, each copy pairing a base-path lockfile
with the same name under the output directory; any copy failure (missing
source, or same-file when the paths coincide) propagates and no job is ever
submitted; when `outdir` is `None` no copy is performed. -/
theorem seeding_behavior (repo od bp : String) (env : Env) :
    (freeze_requirements.main repo (some od) bp env).seedCopies =
        (copySeed env.fs bp od lockfiles).1 ∧
      (∀ p ∈ (copySeed env.fs bp od lockfiles).1,
        ∃ lf ∈ lockfiles, p = (bp ++ "/" ++ lf, od ++ "/" ++ lf)) ∧
      (∀ e, (copySeed env.fs bp od lockfiles).2 = some e →
        (freeze_requirements.main repo (some od) bp env).result =
            .error (.seed e) ∧
          (freeze_requirements.main repo (some od) bp
              env).stage1Submitted = [] ∧
          (freeze_requirements.main repo (some od) bp
              env).stage2Submitted = []) ∧
      (freeze_requirements.main repo none bp env).seedCopies = [] := by
  refine ⟨?_, copySeed_shape env.fs bp od lockfiles, ?_, ?_⟩
  · cases h : (copySeed env.fs bp od lockfiles).2 with
    | some e =>
      rw [main_seed_err repo (some od) bp env e h]
      rfl
    | none =>
      rw [main_seed_ok repo (some od) bp env h]
      exact afterSeed_seedCopies _ _ _ _ _
  · intro e he
    rw [main_seed_err repo (some od) bp env e he]
    exact ⟨rfl, rfl, rfl⟩
  · rw [main_seed_ok repo none bp env rfl]
    exact afterSeed_seedCopies _ _ _ _ _

/-- A run environment whose filesystem has no file at all. -/
def env_missing : Env := ⟨fun _ => none, fun _ => none, fun _ => some []⟩

/-- Witness for C6 (amended): with an explicit output directory and a
missing source lockfile, the copy fails loudly and no job is submitted. -/
theorem seeding_behavior_witness :
    ((freeze_requirements.main "sentry" (some "/out") "/repo"
          env_missing).seedCopies =
        (copySeed env_missing.fs "/repo" "/out" lockfiles).1 ∧
      (∀ p ∈ (copySeed env_missing.fs "/repo" "/out" lockfiles).1,
        ∃ lf ∈ lockfiles,
          p = ("/repo" ++ "/" ++ lf, "/out" ++ "/" ++ lf)) ∧
      ((copySeed env_missing.fs "/repo" "/out" lockfiles).2 =
          some (.fileNotFound "/repo/requirements-frozen.txt") ∧
        (freeze_requirements.main "sentry" (some "/out") "/repo"
            env_missing).result =
          .error (.seed (.fileNotFound "/repo/requirements-frozen.txt")) ∧
        (freeze_requirements.main "sentry" (some "/out") "/repo"
            env_missing).stage1Submitted = [] ∧
        (freeze_requirements.main "sentry" (some "/out") "/repo"
            env_missing).stage2Submitted = []) ∧
      (freeze_requirements.main "sentry" none "/repo"
          env_missing).seedCopies = []) :=
  ⟨(seeding_behavior "sentry" "/out" "/repo" env_missing).1,
    (seeding_behavior "sentry" "/out" "/repo" env_missing).2.1,
    ⟨rfl, (seeding_behavior "sentry" "/out" "/repo" env_missing).2.2.1 _ rfl⟩,
    (seeding_behavior "sentry" "/out" "/repo" env_missing).2.2.2⟩

/-- Counterexample to C6 as stated: when the provided output directory
equals the base path, seeding is not skipped — the first `copyfile` raises
`SameFileError`, the run aborts before submitting any job — whereas the same
run with `outdir = None` (same equal paths) runs all jobs and returns 0. -/
theorem seeding_counterexample :
    (freeze_requirements.main "sentry" (some "/repo") "/repo"
          env_all_ok).result =
        .error (.seed (.sameFile "/repo/requirements-frozen.txt")) ∧
      (freeze_requirements.main "sentry" (some "/repo") "/repo"
          env_all_ok).stage1Submitted = [] ∧
      (freeze_requirements.main "sentry" none "/repo" env_all_ok).result =
        .ok 0 :=
  ⟨rfl, rfl, rfl⟩

/-- Exceptions of the `if __name__ == "__main__"` block: `argparseError` is
argparse rejecting the argv (process exit 2); `typeErrorMissingOutdir` is
the `TypeError` raised by evaluating `main(args.repo)` — `main` has two
required positional parameters `(repo, outdir)` and no argparse option
supplies `outdir`; `uncaughtFromMain` is an exception escaping `main`. -/
inductive ScriptErr where
  | argparseError
  | typeErrorMissingOutdir
  | uncaughtFromMain (e : PyErr)
deriving DecidableEq

/-- The argparse surface: a single positional argument `repo`; any other
token count is rejected. -/
def parse_args : List String → Except ScriptErr String
  | [r] => .ok r
  | _ => .error .argparseError

/-- The positional parameters of `def main(repo, outdir)`: both are
required — `outdir : Optional[str]` is only an annotation, with no default
value. -/
def main_positional_params : List String := ["repo", "outdir"]

/-- The actual arguments the entry point passes: `main(args.repo)`. -/
def main_call_actuals (repo : String) : List String := [repo]

/-- The `if __name__ == "__main__"` block: parse the argv, then evaluate
`raise SystemExit(main(args.repo))`.  Python's call binding raises
`TypeError` when fewer actuals than required positional parameters are
supplied, before `main`'s body runs; otherwise `main`'s return becomes the
`SystemExit` value and an exception escaping `main` propagates. -/
def run_script (argv : List String) (base_path : String) (env : Env) :
    Except ScriptErr Nat :=
  match parse_args argv with
  | .error e => .error e
  | .ok repo =>
    if (main_call_actuals repo).length < main_positional_params.length then
      .error .typeErrorMissingOutdir
    else
      match (freeze_requirements.main repo none base_path env).result with
      | .ok rc => .ok rc
      | .error e => .error (.uncaughtFromMain e)

/-- The process exit status of the entry point: `SystemExit(rc)` exits with
`rc`, an argparse rejection exits 2, and any uncaught exception (including
the `TypeError`) exits 1. -/
def script_exit : Except ScriptErr Nat → Nat
  | .ok rc => rc
  | .error .argparseError => 2
  | .error _ => 1

/-- C7: the entry point accepts the one positional `repo` argument but then
always raises `TypeError` — `main(args.repo)` omits the required `outdir`
positional and argparse defines no output-directory argument — so the
process exits 1 by traceback even on an input where `main` itself would have
returned aggregate status 0. -/
theorem entrypoint_type_error :
    run_script ["sentry"] "/repo" env_all_ok =
        .error .typeErrorMissingOutdir ∧
      script_exit (run_script ["sentry"] "/repo" env_all_ok) = 1 ∧
      processStatus
        (freeze_requirements.main "sentry" none "/repo" env_all_ok) = 0 :=
  ⟨rfl, rfl, rfl⟩

/-- Witness for C4: a run in which every tool invocation succeeds but no
output file can be reopened; an exception escapes and the process exits 1. -/
theorem stamp_failure_propagates_witness :
    (∃ args ∈ (freeze_requirements.main "sentry" none "/repo"
          env_stamp_fail).stage1Submitted ++
        (freeze_requirements.main "sentry" none "/repo"
            env_stamp_fail).stage2Submitted,
      isStampFailure (jobOutcome env_stamp_fail args) = true) ∧
      (∃ e, (freeze_requirements.main "sentry" none "/repo"
          env_stamp_fail).result = .error e) ∧
      processStatus (freeze_requirements.main "sentry" none "/repo"
          env_stamp_fail) = 1 :=
  ⟨by decide, stamp_failure_propagates "sentry" none "/repo" env_stamp_fail
    (by decide)⟩

/-- Witness for C3: a fully successful non-getsentry run returns 0 and all
three submitted jobs succeeded. -/
theorem main_status_iff_all_ok_witness :
    (freeze_requirements.main "sentry" none "/repo" env_all_ok).result =
        .ok 0 ∧
      (0 = 0 ↔
        ∀ args ∈
            (freeze_requirements.main "sentry" none "/repo"
                env_all_ok).stage1Submitted ++
              (freeze_requirements.main "sentry" none "/repo"
                  env_all_ok).stage2Submitted,
          okB (jobOutcome env_all_ok args) = true) ∧ (0 = 0 ∨ 0 = 1) :=
  ⟨rfl, main_status_iff_all_ok "sentry" none "/repo" env_all_ok 0 rfl⟩
